import Mathlib

set_option maxRecDepth 20000

/- Shallow embedding over ℚ of the SPH fluid-simulation core of this repository:
   src/src/Math/SPH.cpp (engine), src/include/Math/SPH.h (SPHConfig, engine state),
   src/include/Particle.h with src/src/Particle.cpp (particle), and
   src/include/Rules.h (particle seeder).

   Modelling conventions:
   - IEEE-754 `float` arithmetic is idealised as exact rational arithmetic; float
     literals such as 9.81f, 0.035f, 1e-6f are read as the rationals they denote
     in decimal.
   - `std::sqrt` is modelled by `ratSqrt`, which is exact on perfect squares;
     every concrete evaluation below only takes square roots of perfect squares.
   - `static_cast<int>(float)` truncates toward zero, modelled by `truncQ`.
   - The 32-bit signed multiplications in the cell hash are modelled with
     two's-complement wrap-around (the pattern of the product modulo 2^32), and
     the int→uint32 conversion is that same pattern.
   - The worker threads of `step` partition the particle array into disjoint
     index ranges and synchronise with barriers between passes; within a pass a
     worker writes only fields of its own range and reads only data that no pass
     participant writes during that pass.  The parallel execution therefore
     denotes the sequential per-index maps used here.
   - The pressure/viscosity neighbour walks increment `neighborIndex` before
     dereferencing, so they can evaluate `_particles[N]`, an out-of-bounds read
     with undefined behaviour in C++.  The model records every dereferenced
     index (including N) but lets an out-of-bounds dereference contribute
     nothing to any sum or count. -/

/-- Float literal PI = 3.1415926f from src/include/Rules.h, as an exact rational. -/
def PI : ℚ := 31415926 / 10000000

/-- Model of std::sqrt on ℚ: componentwise Nat.sqrt of numerator and denominator.
Exact whenever the argument is the square of a rational whose reduced numerator
and denominator are perfect squares; all concrete runs in this file only take
square roots of 0 or of perfect squares. -/
def ratSqrt (q : ℚ) : ℚ := (Nat.sqrt q.num.toNat : ℚ) / (Nat.sqrt q.den : ℚ)

/-- Model of static_cast<int>(float): truncation toward zero (Int.tdiv of the
reduced numerator by the positive denominator). -/
def truncQ (q : ℚ) : ℤ := Int.tdiv q.num (q.den : ℤ)

/-- Vec3<float> (src/include/Math/Vec.h): a 3-component float vector. -/
structure Vec3Q where
  x : ℚ
  y : ℚ
  z : ℚ
deriving DecidableEq

/-- Vec3 componentwise addition (Vec.h operator+). -/
def vadd (a b : Vec3Q) : Vec3Q := ⟨a.x + b.x, a.y + b.y, a.z + b.z⟩

/-- Vec3 componentwise subtraction (Vec.h operator-). -/
def vsub (a b : Vec3Q) : Vec3Q := ⟨a.x - b.x, a.y - b.y, a.z - b.z⟩

/-- Vec3 scalar multiplication (Vec.h operator* with a scalar). -/
def vsmul (a : Vec3Q) (s : ℚ) : Vec3Q := ⟨a.x * s, a.y * s, a.z * s⟩

/-- Vec3 scalar division (Vec.h operator/ with a scalar). -/
def vdiv (a : Vec3Q) (s : ℚ) : Vec3Q := ⟨a.x / s, a.y / s, a.z / s⟩

/-- Vec3 dot product (Vec.h operator* with a vector). -/
def vdot (a b : Vec3Q) : ℚ := a.x * b.x + a.y * b.y + a.z * b.z

/-- The zero vector, i.e. Vec3<float> {}. -/
def vzero : Vec3Q := ⟨0, 0, 0⟩

/-- Particle (src/include/Particle.h): position, predicted position, velocity,
density and near density.  The rendering members are out of scope. -/
structure Particle where
  position : Vec3Q
  predicted : Vec3Q
  velocity : Vec3Q
  density : ℚ
  nearDensity : ℚ
deriving DecidableEq

/-- Particle::Particle(position, velocity) (src/src/Particle.cpp lines 14-19):
predicted is set to position; density and nearDensity keep their in-class
initialisers 0. -/
def mkParticle (position velocity : Vec3Q) : Particle :=
  ⟨position, position, velocity, 0, 0⟩

/-- A default-constructed Particle: all members value-initialised to zero. -/
def defaultParticle : Particle := ⟨vzero, vzero, vzero, 0, 0⟩

/-- SPHConfig (src/include/Math/SPH.h) with its default member values. -/
structure SPHConfig where
  gravity : ℚ := -981/100
  smoothingRadius : ℚ := 1/5
  targetDensity : ℚ := 1000
  pressureMultiplier : ℚ := 30
  nearPressureMultiplier : ℚ := 25
  viscosityStrength : ℚ := 35/1000
  collisionDamping : ℚ := 85/100
  bounds : Vec3Q := ⟨1, 1, 1⟩
deriving DecidableEq

/-- Kernel coefficient K_SpikyPow2 = 15/(2 π h⁵) computed by SPH::init (line 36). -/
def kSpikyPow2 (h : ℚ) : ℚ := 15 / (2 * PI * h^5)

/-- Kernel coefficient K_SpikyPow3 = 15/(π h⁶) computed by SPH::init (line 37). -/
def kSpikyPow3 (h : ℚ) : ℚ := 15 / (PI * h^6)

/-- Kernel coefficient K_SpikyPow2Grad = 15/(π h⁵) computed by SPH::init (line 38). -/
def kSpikyPow2Grad (h : ℚ) : ℚ := 15 / (PI * h^5)

/-- Kernel coefficient K_SpikyPow3Grad = 45/(π h⁶) computed by SPH::init (line 39). -/
def kSpikyPow3Grad (h : ℚ) : ℚ := 45 / (PI * h^6)

/-- SPH::densityKernel (SPH.cpp lines 64-71), with the smoothing radius and the
coefficient member K_SpikyPow2 passed explicitly. -/
def densityKernel (h K distance : ℚ) : ℚ :=
  if distance < h then (h - distance) * (h - distance) * K else 0

/-- SPH::nearDensityKernel (SPH.cpp lines 73-80). -/
def nearDensityKernel (h K distance : ℚ) : ℚ :=
  if distance < h then (h - distance) * (h - distance) * (h - distance) * K else 0

/-- SPH::densityDerivative (SPH.cpp lines 82-89); note the non-strict cutoff d ≤ h. -/
def densityDerivative (h K distance : ℚ) : ℚ :=
  if distance ≤ h then -(h - distance) * K else 0

/-- SPH::nearDensityDerivative (SPH.cpp lines 91-98); non-strict cutoff d ≤ h. -/
def nearDensityDerivative (h K distance : ℚ) : ℚ :=
  if distance ≤ h then -(h - distance) * (h - distance) * K else 0

/-- SPH::poly6Kernel (SPH.cpp lines 100-108); the scale 315/(64 π h⁹) is
recomputed inside the function. -/
def poly6Kernel (h distance : ℚ) : ℚ :=
  if distance < h then
    (h * h - distance * distance) * (h * h - distance * distance)
      * (h * h - distance * distance) * (315 / (64 * PI * h^9))
  else 0

/-- SPH::pressureFromDensity (SPH.cpp lines 110-113). -/
def pressureFromDensity (cfg : SPHConfig) (density : ℚ) : ℚ :=
  (density - cfg.targetDensity) * cfg.pressureMultiplier

/-- SPH::nearPressureFromDensity (SPH.cpp lines 115-118). -/
def nearPressureFromDensity (cfg : SPHConfig) (nearDensity : ℚ) : ℚ :=
  nearDensity * cfg.nearPressureMultiplier

/-- A discrete cell coordinate, Vec3<int>. -/
structure Cell where
  cx : ℤ
  cy : ℤ
  cz : ℤ
deriving DecidableEq

/-- Componentwise Cell addition (Vec.h operator+ on Vec3<int>). -/
def cellAdd (a b : Cell) : Cell := ⟨a.cx + b.cx, a.cy + b.cy, a.cz + b.cz⟩

/-- SPH::getCell (SPH.cpp lines 120-123): componentwise truncating cast of
predicted / smoothingRadius to Vec3<int>. -/
def getCell (h : ℚ) (p : Particle) : Cell :=
  ⟨truncQ (p.predicted.x / h), truncQ (p.predicted.y / h), truncQ (p.predicted.z / h)⟩

/-- Two's-complement uint32 bit pattern of a (wrapped) int value. -/
def toU32 (z : ℤ) : ℕ := (z % (2^32 : ℤ)).toNat

/-- SPH::hash (SPH.cpp lines 125-128): cell.x·73856093 xor cell.y·19349663 xor
cell.z·83492791 in 32-bit integer arithmetic, seen as its uint32 pattern (the
implicit int→uint32 conversion applied at the call site keyFromHash). -/
def hashCell (c : Cell) : ℕ :=
  Nat.xor (Nat.xor (toU32 (c.cx * 73856093)) (toU32 (c.cy * 19349663)))
    (toU32 (c.cz * 83492791))

/-- SPH::keyFromHash (SPH.cpp lines 130-133): hash modulo the particle count. -/
def keyFromHash (hsh n : ℕ) : ℕ := hsh % n

/-- SPH::OFFSETS_3D (SPH.cpp lines 43-47): the 27 offsets of the 3×3×3 cell
neighbourhood, in source order. -/
def OFFSETS_3D : List Cell :=
  [⟨-1, -1, -1⟩, ⟨0, -1, -1⟩, ⟨1, -1, -1⟩, ⟨-1, 0, -1⟩,
   ⟨0, 0, -1⟩, ⟨1, 0, -1⟩, ⟨-1, 1, -1⟩, ⟨0, 1, -1⟩, ⟨1, 1, -1⟩, ⟨-1, -1, 0⟩,
   ⟨0, -1, 0⟩, ⟨1, -1, 0⟩, ⟨-1, 0, 0⟩, ⟨0, 0, 0⟩, ⟨1, 0, 0⟩, ⟨-1, 1, 0⟩, ⟨0, 1, 0⟩,
   ⟨1, 1, 0⟩, ⟨-1, -1, 1⟩, ⟨0, -1, 1⟩, ⟨1, -1, 1⟩, ⟨-1, 0, 1⟩, ⟨0, 0, 1⟩, ⟨1, 0, 1⟩,
   ⟨-1, 1, 1⟩, ⟨0, 1, 1⟩, ⟨1, 1, 1⟩]

/-- std::vector::resize: keep the first n existing entries, value-initialise the rest. -/
def resizeList {α : Type} (l : List α) (n : ℕ) (d : α) : List α :=
  l.take n ++ List.replicate (n - l.length) d

/-- The state of the SPH singleton (the data members of class SPH in
src/include/Math/SPH.h): configuration, particle array, the five scratch
buffers, the worker-thread count and the four precomputed kernel coefficients. -/
structure SPHState where
  config : SPHConfig
  particles : List Particle
  keys : List ℕ
  sortedIndices : List ℕ
  offsets : List ℕ
  reorderBuffer : List Particle
  velocitySnapshot : List Vec3Q
  threadCount : ℕ
  useViscosity : Bool
  K_SpikyPow2 : ℚ
  K_SpikyPow3 : ℚ
  K_SpikyPow2Grad : ℚ
  K_SpikyPow3Grad : ℚ

/-- The default-constructed singleton before init: default configuration, empty
buffers, zero coefficients, _useViscosity = true. -/
def emptyState : SPHState :=
  ⟨{}, [], [], [], [], [], [], 0, true, 0, 0, 0, 0⟩

/-- SPH::init (SPH.cpp lines 19-40): install configuration and particles, resize
every scratch buffer to N, choose the worker count
min(max(1, hardware_concurrency), N), recompute the four kernel coefficients.
hw is the environment's hardware_concurrency. -/
def init (hw : ℕ) (config : SPHConfig) (particles : List Particle) (s : SPHState) :
    SPHState :=
  let n := particles.length
  { s with
    config := config
    particles := particles
    keys := resizeList s.keys n 0
    sortedIndices := resizeList s.sortedIndices n 0
    offsets := resizeList s.offsets n 0
    reorderBuffer := resizeList s.reorderBuffer n defaultParticle
    velocitySnapshot := resizeList s.velocitySnapshot n vzero
    threadCount := min (max 1 hw) n
    K_SpikyPow2 := kSpikyPow2 config.smoothingRadius
    K_SpikyPow3 := kSpikyPow3 config.smoothingRadius
    K_SpikyPow2Grad := kSpikyPow2Grad config.smoothingRadius
    K_SpikyPow3Grad := kSpikyPow3Grad config.smoothingRadius }

/-- SPH::setConfig (SPH.cpp lines 54-57): a single assignment to _config. -/
def setConfig (s : SPHState) (config : SPHConfig) : SPHState :=
  { s with config := config }

/-- The chunk size computed at the top of SPH::step (line 150):
(N + threadCount − 1) / threadCount in size_t arithmetic.  The division is
undefined when threadCount = 0, modelled as none. -/
def stepChunk (threadCount n : ℕ) : Option ℕ :=
  if threadCount = 0 then none else some ((n + threadCount - 1) / threadCount)

/-- std::clamp(v, lo, hi) (well-defined when lo ≤ hi). -/
def clampQ (v lo hi : ℚ) : ℚ := if v < lo then lo else if hi < v then hi else v

/-- The sampling box computed by spawnParticlesInBox (src/include/Rules.h lines
27-33): the margin is clamped to [0, boxSize/2] and the floor minY is lowered to
the ceiling maxY when it would exceed it. -/
structure SpawnBox where
  xlo : ℚ
  xhi : ℚ
  ylo : ℚ
  yhi : ℚ
  zlo : ℚ
  zhi : ℚ

/-- The distribution bounds used by spawnParticlesInBox. -/
def spawnBox (boxSize margin minHeightRatio : ℚ) : SpawnBox :=
  let halfBox := boxSize * (1/2)
  let clampedMargin := clampQ margin 0 halfBox
  let maxY := halfBox - clampedMargin
  let minY0 := max (-halfBox + clampedMargin) (minHeightRatio * halfBox)
  let minY := if maxY < minY0 then maxY else minY0
  ⟨-halfBox + clampedMargin, halfBox - clampedMargin, minY, maxY,
   -halfBox + clampedMargin, halfBox - clampedMargin⟩

/-- The i-th sample of std::uniform_real_distribution lies in the distribution's
interval; the RNG is abstracted as the sample function itself. -/
def sampleInBox (b : SpawnBox) (v : Vec3Q) : Prop :=
  b.xlo ≤ v.x ∧ v.x ≤ b.xhi ∧ b.ylo ≤ v.y ∧ v.y ≤ b.yhi ∧ b.zlo ≤ v.z ∧ v.z ≤ b.zhi

instance (b : SpawnBox) (v : Vec3Q) : Decidable (sampleInBox b v) := by
  unfold sampleInBox
  infer_instance

/-- spawnParticlesInBox (src/include/Rules.h lines 21-48), with the mt19937
draws abstracted into the sample function: particle i is constructed from the
i-th sampled position and zero velocity.  The box parameters determine the
uniform_real_distribution intervals, expressed by requiring
sampleInBox (spawnBox boxSize margin minHeightRatio) of every sample. -/
def spawnParticlesInBox (count : ℕ) (boxSize margin minHeightRatio : ℚ)
    (sample : ℕ → Vec3Q) : List Particle :=
  (List.range count).map (fun i => mkParticle (sample i) vzero)

/-- SPH::applyExternalForces (SPH.cpp lines 214-221), per particle:
velocity.y += gravity·dt; predicted = position + velocity·dt. -/
def applyExternalForces (cfg : SPHConfig) (dt : ℚ) (p : Particle) : Particle :=
  let v : Vec3Q := ⟨p.velocity.x, p.velocity.y + cfg.gravity * dt, p.velocity.z⟩
  { p with velocity := v, predicted := vadd p.position (vsmul v dt) }

/-- The key computation of SPH::buildSpatialHash (SPH.cpp lines 225-227):
keys[i] = keyFromHash(hash(getCell(particles[i]))). -/
def computeKeys (cfg : SPHConfig) (ps : List Particle) : List ℕ :=
  ps.map (fun p => keyFromHash (hashCell (getCell cfg.smoothingRadius p)) ps.length)

/-- The index sort of SPH::buildSpatialHash (SPH.cpp lines 229-232).
std::ranges::sort with comparator keys[a] < keys[b] produces an unspecified
permutation of iota whose key sequence is nondecreasing; the model realises it
with insertion sort on the same comparator's reflexive closure. -/
def sortIndicesOf (keys : List ℕ) : List ℕ :=
  List.insertionSort (fun a b => keys.getD a 0 ≤ keys.getD b 0) (List.range keys.length)

/-- SPH::reorderParticles (SPH.cpp lines 234-243), particle part:
buffer[i] = particles[sortedIndices[i]], then particles = buffer. -/
def reorderParticles (ps : List Particle) (idx : List ℕ) : List Particle :=
  idx.map (fun i => ps.getD i defaultParticle)

/-- SPH::reorderParticles (SPH.cpp lines 234-243), key part:
keys[i] = keysCopy[sortedIndices[i]]. -/
def reorderKeys (keys idx : List ℕ) : List ℕ :=
  idx.map (fun i => keys.getD i 0)

/-- One update of the offset-fill loop of SPH::step (lines 168-173), projected
to the slot k: for ascending i, if keys[i] = k and i < offsets[k] then
offsets[k] = i. -/
def offStep (keys : List ℕ) (k acc i : ℕ) : ℕ :=
  if keys.getD i 0 = k ∧ i < acc then i else acc

/-- The offset-fill loop of SPH::step (lines 168-173) run up to index n,
projected to slot k, starting from the fill value N. -/
def offAux (keys : List ℕ) (k n : ℕ) : ℕ :=
  (List.range n).foldl (offStep keys k) keys.length

/-- The content of _offsets[k] after the offset fill of SPH::step (lines
168-173): the smallest index whose key is k, and N for keys held by no particle. -/
def offsetsAt (keys : List ℕ) (k : ℕ) : ℕ := offAux keys k keys.length

/-- The particle array after the external-force pass of SPH::step. -/
def afterForces (cfg : SPHConfig) (dt : ℚ) (ps : List Particle) : List Particle :=
  ps.map (applyExternalForces cfg dt)

/-- The reordered key buffer after the single-threaded index build of SPH::step
(key computation, sort, reorder). -/
def builtKeys (cfg : SPHConfig) (dt : ℚ) (ps : List Particle) : List ℕ :=
  reorderKeys (computeKeys cfg (afterForces cfg dt ps))
    (sortIndicesOf (computeKeys cfg (afterForces cfg dt ps)))

/-- The reordered particle array after the single-threaded index build of
SPH::step. -/
def builtParticles (cfg : SPHConfig) (dt : ℚ) (ps : List Particle) : List Particle :=
  reorderParticles (afterForces cfg dt ps)
    (sortIndicesOf (computeKeys cfg (afterForces cfg dt ps)))

/-- The dereference-then-increment bucket walk of SPH::calculateDensities
(lines 260-270): starting at j, while j < N and keys[j] = key, the body reads
_particles[j] and then increments.  Returns the dereferenced indices in order.
The fuel argument (always called with N+1) bounds the strictly increasing
iteration count. -/
def walkDeref0 (keys : List ℕ) (key : ℕ) : ℕ → ℕ → List ℕ
  | 0, _ => []
  | fuel + 1, j =>
    if j < keys.length ∧ keys.getD j 0 = key then j :: walkDeref0 keys key fuel (j + 1)
    else []

/-- The increment-then-dereference bucket walk of SPH::calculatePressureForce
(lines 295-298) and SPH::calculateViscosity (lines 353-356): while j < N and
keys[j] = key, the body first increments and then reads _particles[j+1].
Returns the dereferenced indices in order; an entry equal to N records the
out-of-bounds read one past the end of the particle array. -/
def walkDeref1 (keys : List ℕ) (key : ℕ) : ℕ → ℕ → List ℕ
  | 0, _ => []
  | fuel + 1, j =>
    if j < keys.length ∧ keys.getD j 0 = key then (j + 1) :: walkDeref1 keys key fuel (j + 1)
    else []

/-- All particle-array indices dereferenced by the 27-cell neighbour iteration
for particle p (SPH.cpp lines 255-258 / 290-293 / 348-351): for each of the 27
offsets, compute the offset cell's key, jump to offsets[key] and walk the
bucket.  incFirst selects the increment-then-dereference variant. -/
def neighborDerefs (h : ℚ) (keys : List ℕ) (p : Particle) (incFirst : Bool) : List ℕ :=
  OFFSETS_3D.flatMap (fun off =>
    let key := keyFromHash (hashCell (cellAdd (getCell h p) off)) keys.length
    if incFirst then walkDeref1 keys key (keys.length + 1) (offsetsAt keys key)
    else walkDeref0 keys key (keys.length + 1) (offsetsAt keys key))

/-- SPH::calculateDensities (SPH.cpp lines 245-276), per particle: accumulate
densityKernel and nearDensityKernel over every dereferenced neighbour within
the squared radius (the walk dereferences before incrementing, so all indices
are in bounds and the particle itself contributes). -/
def calculateDensities (cfg : SPHConfig) (K2 K3 : ℚ) (keys : List ℕ)
    (ps : List Particle) (p : Particle) : Particle :=
  let h := cfg.smoothingRadius
  let dn := (neighborDerefs h keys p false).foldl
    (fun (acc : ℚ × ℚ) j =>
      let q := ps.getD j defaultParticle
      let dvec := vsub q.predicted p.predicted
      if vdot dvec dvec ≤ h^2 then
        let distance := ratSqrt (vdot dvec dvec)
        (acc.1 + densityKernel h K2 distance, acc.2 + nearDensityKernel h K3 distance)
      else acc) (0, 0)
  { p with density := dn.1, nearDensity := dn.2 }

/-- SPH::calculatePressureForce (SPH.cpp lines 278-334), per particle index i:
walk the 27 buckets with the increment-then-dereference walk, skip the particle
itself (`neighbor != particle` compares addresses, i.e. indices here) and skip
out-of-bounds dereferences (undefined behaviour in C++, modelled as
contributing nothing), accumulate the pressure force and the neighbour count,
then apply acceleration·dt and the airborne drag when fewer than 8 neighbours
were counted.  Returns the particle's new velocity. -/
def calculatePressureForce (cfg : SPHConfig) (K2g K3g : ℚ) (keys : List ℕ)
    (ps : List Particle) (dt : ℚ) (i : ℕ) : Vec3Q :=
  let p := ps.getD i defaultParticle
  let h := cfg.smoothingRadius
  let pressure := pressureFromDensity cfg p.density
  let nearPressure := nearPressureFromDensity cfg p.nearDensity
  let acc := (neighborDerefs h keys p true).foldl
    (fun (acc : Vec3Q × ℕ) j =>
      if j < ps.length ∧ j ≠ i then
        let q := ps.getD j defaultParticle
        let dvec := vsub q.predicted p.predicted
        if vdot dvec dvec ≤ h^2 then
          let sharedPressure := (pressure + pressureFromDensity cfg q.density) * (1/2)
          let sharedNearPressure :=
            (nearPressure + nearPressureFromDensity cfg q.density) * (1/2)
          let dst := ratSqrt (vdot dvec dvec)
          let dir := if 1/1000000 < dst then vdiv dvec dst else vzero
          let f1 := vdiv (vsmul (vsmul dir (densityDerivative h K2g dst)) sharedPressure)
            q.density
          let f2 := vdiv (vsmul (vsmul dir (nearDensityDerivative h K3g dst))
            sharedNearPressure) (max (1/1000000) q.nearDensity)
          (vadd (vadd acc.1 f1) f2, acc.2 + 1)
        else acc
      else acc) (vzero, 0)
  let acceleration := vsmul acc.1 (1 / max (1/1000000) p.density)
  let v := vadd p.velocity (vsmul acceleration dt)
  if acc.2 < 8 then vsub v (vsmul (vsmul v dt) (3/4)) else v

/-- The guarded neighbour events of the pressure pass for particle index i: the
dereferenced indices that pass all three guards of SPH.cpp lines 298-321
(in-bounds — out-of-bounds reads are undefined behaviour —, address inequality
with the particle itself, squared distance within the squared radius).  Each
such event adds both force terms once and increments neighborCount once. -/
def pressureProcessed (cfg : SPHConfig) (keys : List ℕ) (ps : List Particle)
    (i : ℕ) : List ℕ :=
  let p := ps.getD i defaultParticle
  let h := cfg.smoothingRadius
  (neighborDerefs h keys p true).filter (fun j =>
    decide (j < ps.length ∧ j ≠ i ∧
      vdot (vsub (ps.getD j defaultParticle).predicted p.predicted)
        (vsub (ps.getD j defaultParticle).predicted p.predicted) ≤ h^2))

/-- SPH::calculateViscosity (SPH.cpp lines 336-371), per particle index i:
same walk and guards as the pressure pass; accumulate
(snapshot[j] − snapshot[i])·poly6Kernel(d) and apply
viscosityStrength·dt.  Returns the particle's new velocity. -/
def calculateViscosity (cfg : SPHConfig) (keys : List ℕ) (ps : List Particle)
    (snapshot : List Vec3Q) (dt : ℚ) (i : ℕ) : Vec3Q :=
  let p := ps.getD i defaultParticle
  let h := cfg.smoothingRadius
  let velocity := snapshot.getD i vzero
  let force := (neighborDerefs h keys p true).foldl
    (fun (acc : Vec3Q) j =>
      if j < ps.length ∧ j ≠ i then
        let q := ps.getD j defaultParticle
        let dvec := vsub q.predicted p.predicted
        if vdot dvec dvec ≤ h^2 then
          vadd acc (vsmul (vsub (snapshot.getD j vzero) velocity)
            (poly6Kernel h (ratSqrt (vdot dvec dvec))))
        else acc
      else acc) vzero
  vadd p.velocity (vsmul (vsmul force cfg.viscosityStrength) dt)

/-- The sign lambda of SPH::resolveCollisions (SPH.cpp line 137): v ≥ 0 ? 1 : -1. -/
def signQ (v : ℚ) : ℚ := if 0 ≤ v then 1 else -1

/-- One axis of SPH::resolveCollisions (SPH.cpp lines 138-144): when
halfBound − |position| ≤ 0, clamp the position to halfBound·sign(position) and
scale the velocity by −collisionDamping. -/
def resolveAxis (damping bound pos vel : ℚ) : ℚ × ℚ :=
  if bound - |pos| ≤ 0 then (bound * signQ pos, vel * (-damping)) else (pos, vel)

/-- SPH::resolveCollisions (SPH.cpp lines 135-145), all three axes. -/
def resolveCollisions (cfg : SPHConfig) (p : Particle) : Particle :=
  let rx := resolveAxis cfg.collisionDamping cfg.bounds.x p.position.x p.velocity.x
  let ry := resolveAxis cfg.collisionDamping cfg.bounds.y p.position.y p.velocity.y
  let rz := resolveAxis cfg.collisionDamping cfg.bounds.z p.position.z p.velocity.z
  { p with position := ⟨rx.1, ry.1, rz.1⟩, velocity := ⟨rx.2, ry.2, rz.2⟩ }

/-- SPH::updatePositions (SPH.cpp lines 373-380), per particle:
position += velocity·dt, then resolve collisions. -/
def updatePositions (cfg : SPHConfig) (dt : ℚ) (p : Particle) : Particle :=
  resolveCollisions cfg { p with position := vadd p.position (vsmul p.velocity dt) }

/-- SPH::step (SPH.cpp lines 147-212) for threadCount ≥ 1 (threadCount = 0
divides by zero computing the chunk size, see stepChunk): external forces,
single-threaded index build, then the barrier-ordered density, pressure,
optional viscosity and position passes.  Each parallel pass denotes a per-index
map because workers write only their own range and read only pass-constant
data. -/
def step (s : SPHState) (dt : ℚ) : SPHState :=
  let cfg := s.config
  let ps2 := builtParticles cfg dt s.particles
  let keys := builtKeys cfg dt s.particles
  let idx := sortIndicesOf (computeKeys cfg (afterForces cfg dt s.particles))
  let ps3 := ps2.map (calculateDensities cfg s.K_SpikyPow2 s.K_SpikyPow3 keys ps2)
  let ps4 := (List.range ps3.length).map (fun i =>
    let p := ps3.getD i defaultParticle
    { p with velocity :=
        calculatePressureForce cfg s.K_SpikyPow2Grad s.K_SpikyPow3Grad keys ps3 dt i })
  let useV := cfg.viscosityStrength ≠ 0
  let snapshot := ps4.map (fun p => p.velocity)
  let ps5 := if cfg.viscosityStrength = 0 then ps4 else
    (List.range ps4.length).map (fun i =>
      let p := ps4.getD i defaultParticle
      { p with velocity := calculateViscosity cfg keys ps4 snapshot dt i })
  let ps6 := ps5.map (updatePositions cfg dt)
  { s with
    particles := ps6
    keys := keys
    sortedIndices := idx
    offsets := (List.range keys.length).map (offsetsAt keys)
    reorderBuffer := ps2
    velocitySnapshot := if cfg.viscosityStrength = 0 then s.velocitySnapshot else snapshot
    useViscosity := decide useV }

/-- Configuration for the two-particle bucket-walk runs: gravity off so the
predicted positions stay at the initial positions; everything else default. -/
def c12Cfg : SPHConfig := { gravity := 0 }

/-- Two particles constructed at the origin with zero velocity. -/
def c12Ps : List Particle := [mkParticle vzero vzero, mkParticle vzero vzero]

/-- The reordered key buffer of the step on c12Ps (both keys are 0). -/
def c12Keys : List ℕ := builtKeys c12Cfg (1/60) c12Ps

/-- The reordered particle array of the step on c12Ps. -/
def c12Parts : List Particle := builtParticles c12Cfg (1/60) c12Ps

/-- Floor-bounce configuration of the spec's scenario 2: gravity 0, pressure and
near-pressure multipliers 0, viscosity off, collision damping 1/2. -/
def c6Cfg : SPHConfig :=
  { gravity := 0, pressureMultiplier := 0, nearPressureMultiplier := 0,
    viscosityStrength := 0, collisionDamping := 1/2 }

/-- The engine state after init with one particle at (0, −1, 0) with velocity
(0, −2, 0). -/
def c6State : SPHState := init 1 c6Cfg [mkParticle ⟨0, -1, 0⟩ ⟨0, -2, 0⟩] emptyState

/-- The engine state after one step of dt = 1/60 on c6State. -/
def c6After : SPHState := step c6State (1/60)

/-- A state produced by init with the default configuration. -/
def c4Prior : SPHState := init 8 {} [] emptyState

/-- A configuration violating all three validity conditions of the spec:
non-positive smoothing radius, negative collision damping, non-positive bounds. -/
def c4Bad : SPHConfig :=
  { smoothingRadius := -1, collisionDamping := -1, bounds := ⟨-1, -1, -1⟩ }

/-- A state produced by init with the default configuration (smoothing radius 1/5). -/
def c5S0 : SPHState := init 8 {} [] emptyState

/-- A configuration that changes the smoothing radius to 1. -/
def c5NewCfg : SPHConfig := { smoothingRadius := 1 }

/-- The state after installing c5NewCfg through setConfig. -/
def c5S1 : SPHState := setConfig c5S0 c5NewCfg

/-- The offset-consistency property of the spatial index build: the key buffer
has one key per particle; every particle's bucket starts at
offsets[keys[i]] ≤ i, indices from that start through i all carry the same key,
no index below the start carries it, and keys held by no particle have offset N. -/
def C7Prop (cfg : SPHConfig) (dt : ℚ) (ps : List Particle) : Prop :=
  (builtKeys cfg dt ps).length = ps.length ∧
  (∀ i, i < (builtKeys cfg dt ps).length →
      offsetsAt (builtKeys cfg dt ps) ((builtKeys cfg dt ps).getD i 0) ≤ i
    ∧ (∀ m, offsetsAt (builtKeys cfg dt ps) ((builtKeys cfg dt ps).getD i 0) ≤ m → m ≤ i →
        (builtKeys cfg dt ps).getD m 0 = (builtKeys cfg dt ps).getD i 0)
    ∧ (∀ j, j < offsetsAt (builtKeys cfg dt ps) ((builtKeys cfg dt ps).getD i 0) →
        (builtKeys cfg dt ps).getD j 0 ≠ (builtKeys cfg dt ps).getD i 0)) ∧
  (∀ k, k ∉ builtKeys cfg dt ps → offsetsAt (builtKeys cfg dt ps) k = ps.length)

/-- The kernel support and monotonicity properties that hold of the source
kernels with the coefficients computed at init: support facts as in the spec,
the three non-negative kernels non-increasing on [0, h], and the two derivative
kernels non-positive and non-decreasing on [0, h]. -/
def C8Prop (h : ℚ) : Prop :=
  densityKernel h (kSpikyPow2 h) h = 0
  ∧ densityKernel h (kSpikyPow2 h) 0 = h^2 * kSpikyPow2 h
  ∧ (∀ d, h ≤ d → densityKernel h (kSpikyPow2 h) d = 0)
  ∧ (∀ d, h ≤ d → nearDensityKernel h (kSpikyPow3 h) d = 0)
  ∧ (∀ d, h < d → densityDerivative h (kSpikyPow2Grad h) d = 0)
  ∧ (∀ d, h < d → nearDensityDerivative h (kSpikyPow3Grad h) d = 0)
  ∧ (∀ d, h ≤ d → poly6Kernel h d = 0)
  ∧ (∀ d1 d2, 0 ≤ d1 → d1 ≤ d2 → d2 ≤ h →
      densityKernel h (kSpikyPow2 h) d2 ≤ densityKernel h (kSpikyPow2 h) d1)
  ∧ (∀ d1 d2, 0 ≤ d1 → d1 ≤ d2 → d2 ≤ h →
      nearDensityKernel h (kSpikyPow3 h) d2 ≤ nearDensityKernel h (kSpikyPow3 h) d1)
  ∧ (∀ d1 d2, 0 ≤ d1 → d1 ≤ d2 → d2 ≤ h → poly6Kernel h d2 ≤ poly6Kernel h d1)
  ∧ (∀ d1 d2, 0 ≤ d1 → d1 ≤ d2 → d2 ≤ h →
      densityDerivative h (kSpikyPow2Grad h) d1 ≤ densityDerivative h (kSpikyPow2Grad h) d2
      ∧ densityDerivative h (kSpikyPow2Grad h) d1 ≤ 0)
  ∧ (∀ d1 d2, 0 ≤ d1 → d1 ≤ d2 → d2 ≤ h →
      nearDensityDerivative h (kSpikyPow3Grad h) d1
        ≤ nearDensityDerivative h (kSpikyPow3Grad h) d2
      ∧ nearDensityDerivative h (kSpikyPow3Grad h) d1 ≤ 0)

/-- The sample function used in the seeder witness: every draw is the origin. -/
def c10Sample : ℕ → Vec3Q := fun _ => vzero

/-- A concrete particle pair for the offset-consistency witness. -/
def c7Ps : List Particle := [mkParticle vzero vzero, mkParticle ⟨1, 0, 0⟩ vzero]

/-- Unfolding the offset-fill loop by its last iteration. -/
theorem offAux_succ (keys : List ℕ) (k n : ℕ) :
    offAux keys k (n + 1) = offStep keys k (offAux keys k n) n := by
  simp [offAux, List.range_succ]

/-- One iteration of the offset fill never increases the stored offset. -/
theorem offStep_le (keys : List ℕ) (k acc i : ℕ) : offStep keys k acc i ≤ acc := by
  unfold offStep
  split
  · next hc => exact Nat.le_of_lt hc.2
  · exact Nat.le_refl _

/-- The offset fill never stores more than the buffer length N. -/
theorem offAux_le_length (keys : List ℕ) (k n : ℕ) : offAux keys k n ≤ keys.length := by
  induction n with
  | zero => simp [offAux]
  | succ n ih =>
    rw [offAux_succ]
    exact Nat.le_trans (offStep_le keys k _ n) ih

/-- After processing indices below n, the stored offset is at most every index
below n whose key is k. -/
theorem offAux_min (keys : List ℕ) (k n : ℕ) :
    ∀ i, i < n → keys.getD i 0 = k → offAux keys k n ≤ i := by
  induction n with
  | zero => exact fun i hi _ => absurd hi (Nat.not_lt_zero i)
  | succ n ih =>
    intro i hi hk
    rw [offAux_succ]
    rcases Nat.lt_succ_iff_lt_or_eq.mp hi with h | h
    · exact Nat.le_trans (offStep_le keys k _ n) (ih i h hk)
    · subst h
      unfold offStep
      split
      · exact Nat.le_refl _
      · next hc => exact Nat.le_of_not_lt (not_and.mp hc hk)

/-- The stored offset is either still the fill value N, or an index below n
whose key is k. -/
theorem offAux_hit (keys : List ℕ) (k n : ℕ) :
    offAux keys k n = keys.length ∨
      (offAux keys k n < n ∧ keys.getD (offAux keys k n) 0 = k) := by
  induction n with
  | zero => exact Or.inl (by simp [offAux])
  | succ n ih =>
    rw [offAux_succ]
    unfold offStep
    split
    · next hc => exact Or.inr ⟨Nat.lt_succ_self n, hc.1⟩
    · rcases ih with h | ⟨h1, h2⟩
      · exact Or.inl h
      · exact Or.inr ⟨Nat.lt_succ_of_lt h1, h2⟩

/-- A getD hit below the length is a list member. -/
theorem mem_of_getD (keys : List ℕ) {i k : ℕ} (hi : i < keys.length)
    (hk : keys.getD i 0 = k) : k ∈ keys := by
  subst hk
  rw [List.getD_eq_getElem keys 0 hi]
  exact List.getElem_mem hi

/-- The filled offset is at most N. -/
theorem offsetsAt_le_length (keys : List ℕ) (k : ℕ) : offsetsAt keys k ≤ keys.length :=
  offAux_le_length keys k keys.length

/-- The filled offset is at most every index holding the key. -/
theorem offsetsAt_min (keys : List ℕ) (k i : ℕ) (hi : i < keys.length)
    (hk : keys.getD i 0 = k) : offsetsAt keys k ≤ i :=
  offAux_min keys k keys.length i hi hk

/-- The filled offset is N or a position that holds the key. -/
theorem offsetsAt_hit (keys : List ℕ) (k : ℕ) :
    offsetsAt keys k = keys.length ∨
      (offsetsAt keys k < keys.length ∧ keys.getD (offsetsAt keys k) 0 = k) :=
  offAux_hit keys k keys.length

/-- Keys held by no particle keep the fill value N. -/
theorem offsetsAt_of_not_mem (keys : List ℕ) (k : ℕ) (h : k ∉ keys) :
    offsetsAt keys k = keys.length := by
  rcases offsetsAt_hit keys k with h1 | ⟨h1, h2⟩
  · exact h1
  · exact absurd (mem_of_getD keys h1 h2) h

/-- In a nondecreasing key buffer, getD is monotone below the length. -/
theorem pairwise_getD_mono (keys : List ℕ) (hs : List.Pairwise (· ≤ ·) keys)
    {a b : ℕ} (hab : a ≤ b) (hb : b < keys.length) :
    keys.getD a 0 ≤ keys.getD b 0 := by
  rcases Nat.lt_or_ge a b with h | h
  · have ha : a < keys.length := Nat.lt_trans h hb
    rw [List.getD_eq_getElem keys 0 ha, List.getD_eq_getElem keys 0 hb]
    exact List.pairwise_iff_getElem.mp hs a b ha hb h
  · have hab2 : a = b := Nat.le_antisymm hab h
    subst hab2
    exact Nat.le_refl _

/-- In a nondecreasing key buffer, indices between two equal keys carry that key. -/
theorem sorted_between (keys : List ℕ) (hs : List.Pairwise (· ≤ ·) keys)
    {i m j : ℕ} (him : i ≤ m) (hmj : m ≤ j) (hj : j < keys.length)
    (hij : keys.getD i 0 = keys.getD j 0) : keys.getD m 0 = keys.getD i 0 := by
  have hmlen : m < keys.length := Nat.lt_of_le_of_lt hmj hj
  have h1 : keys.getD i 0 ≤ keys.getD m 0 := pairwise_getD_mono keys hs him hmlen
  have h2 : keys.getD m 0 ≤ keys.getD j 0 := pairwise_getD_mono keys hs hmj hj
  rw [← hij] at h2
  exact Nat.le_antisymm h2 h1

/-- The reorder of any key buffer along its index sort is nondecreasing. -/
theorem reorderKeys_sorted (keys : List ℕ) :
    List.Pairwise (· ≤ ·) (reorderKeys keys (sortIndicesOf keys)) := by
  unfold reorderKeys sortIndicesOf
  rw [List.pairwise_map]
  haveI : IsTotal ℕ (fun a b => keys.getD a 0 ≤ keys.getD b 0) :=
    ⟨fun a b => Nat.le_total _ _⟩
  haveI : IsTrans ℕ (fun a b => keys.getD a 0 ≤ keys.getD b 0) :=
    ⟨fun _ _ _ h1 h2 => Nat.le_trans h1 h2⟩
  exact List.sorted_insertionSort _ _

/-- The reordered key buffer after the index build is nondecreasing. -/
theorem builtKeys_sorted (cfg : SPHConfig) (dt : ℚ) (ps : List Particle) :
    List.Pairwise (· ≤ ·) (builtKeys cfg dt ps) := by
  unfold builtKeys
  exact reorderKeys_sorted _

/-- The reordered key buffer has one key per particle. -/
theorem builtKeys_length (cfg : SPHConfig) (dt : ℚ) (ps : List Particle) :
    (builtKeys cfg dt ps).length = ps.length := by
  unfold builtKeys reorderKeys sortIndicesOf computeKeys afterForces
  simp [List.length_insertionSort]

/-- C7: after the single-threaded index build of a step (key computation, sort,
reorder, offset fill) with N ≥ 1 particles, for every index i the offset of
keys[i] is at most i, the indices sharing keys[i] form one contiguous range
starting at offsets[keys[i]], and offsets of keys held by no particle equal N. -/
theorem C7_offset_consistency (cfg : SPHConfig) (dt : ℚ) (ps : List Particle)
    (hN : 1 ≤ ps.length) : C7Prop cfg dt ps := by
  unfold C7Prop
  have hsort := builtKeys_sorted cfg dt ps
  have hlen := builtKeys_length cfg dt ps
  refine ⟨hlen, ?_, ?_⟩
  · intro i hi
    have hmin : offsetsAt (builtKeys cfg dt ps) ((builtKeys cfg dt ps).getD i 0) ≤ i :=
      offsetsAt_min _ _ i hi rfl
    refine ⟨hmin, ?_, ?_⟩
    · intro m h1 h2
      rcases offsetsAt_hit (builtKeys cfg dt ps) ((builtKeys cfg dt ps).getD i 0) with
        hcase | ⟨_, hkey⟩
      · exfalso
        have := Nat.lt_of_le_of_lt hmin hi
        omega
      · have hmk := sorted_between (builtKeys cfg dt ps) hsort h1 h2 hi hkey
        exact hmk.trans hkey
    · intro j hj hcontra
      have hjlen : j < (builtKeys cfg dt ps).length :=
        Nat.lt_of_lt_of_le hj (offsetsAt_le_length _ _)
      have := offsetsAt_min (builtKeys cfg dt ps) ((builtKeys cfg dt ps).getD i 0) j hjlen hcontra
      omega
  · intro k hk
    rw [← hlen]
    exact offsetsAt_of_not_mem _ k hk

/-- Witness for C7 at a concrete two-particle input. -/
theorem C7_offset_consistency_witness :
    1 ≤ c7Ps.length ∧ C7Prop ({} : SPHConfig) (1/60) c7Ps :=
  ⟨by decide, C7_offset_consistency ({} : SPHConfig) (1/60) c7Ps (by decide)⟩

/-- C9: setConfig writes only the stored configuration; the particle array, all
five scratch buffers, the worker count, the viscosity flag and the four
precomputed kernel coefficients are unchanged. -/
theorem C9_setConfig_frame (s : SPHState) (c : SPHConfig) :
    (setConfig s c).particles = s.particles
    ∧ (setConfig s c).keys = s.keys
    ∧ (setConfig s c).sortedIndices = s.sortedIndices
    ∧ (setConfig s c).offsets = s.offsets
    ∧ (setConfig s c).reorderBuffer = s.reorderBuffer
    ∧ (setConfig s c).velocitySnapshot = s.velocitySnapshot
    ∧ (setConfig s c).threadCount = s.threadCount
    ∧ (setConfig s c).useViscosity = s.useViscosity
    ∧ (setConfig s c).K_SpikyPow2 = s.K_SpikyPow2
    ∧ (setConfig s c).K_SpikyPow3 = s.K_SpikyPow3
    ∧ (setConfig s c).K_SpikyPow2Grad = s.K_SpikyPow2Grad
    ∧ (setConfig s c).K_SpikyPow3Grad = s.K_SpikyPow3Grad :=
  ⟨rfl, rfl, rfl, rfl, rfl, rfl, rfl, rfl, rfl, rfl, rfl, rfl⟩

/-- C4 fails on the code: installing a configuration with non-positive smoothing
radius, negative collision damping and non-positive bounds through setConfig (or
init) succeeds and replaces the previously installed configuration. -/
theorem C4_counterexample :
    c4Bad.smoothingRadius ≤ 0 ∧ c4Bad.collisionDamping < 0 ∧ c4Bad.bounds.x ≤ 0
    ∧ (setConfig c4Prior c4Bad).config = c4Bad
    ∧ (setConfig c4Prior c4Bad).config ≠ c4Prior.config
    ∧ (init 8 c4Bad [] c4Prior).config = c4Bad :=
  of_decide_eq_true (by with_unfolding_all rfl)

/-- C4 amended: init and setConfig perform no validation; every configuration is
installed verbatim, and setConfig leaves the particle state untouched. -/
theorem C4_no_validation (s : SPHState) (c : SPHConfig) (hw : ℕ)
    (ps : List Particle) (prev : SPHState) :
    (setConfig s c).config = c ∧ (setConfig s c).particles = s.particles
    ∧ (init hw c ps prev).config = c ∧ (init hw c ps prev).particles = ps :=
  ⟨rfl, rfl, rfl, rfl⟩

/-- C5 fails on the code: after setConfig changes the smoothing radius from the
init value 1/5 to 1, none of the four coefficients used by the next step equals
the spec's formula at the new radius; they keep the values computed at init. -/
theorem C5_counterexample :
    c5NewCfg.smoothingRadius ≠ c5S0.config.smoothingRadius
    ∧ c5S1.config.smoothingRadius = 1
    ∧ c5S1.K_SpikyPow2 ≠ 15 / (2 * PI * 1^5)
    ∧ c5S1.K_SpikyPow3 ≠ 15 / (PI * 1^6)
    ∧ c5S1.K_SpikyPow2Grad ≠ 15 / (PI * 1^5)
    ∧ c5S1.K_SpikyPow3Grad ≠ 45 / (PI * 1^6) :=
  of_decide_eq_true (by with_unfolding_all rfl)

/-- C5 amended: setConfig leaves the four kernel coefficients unchanged, so the
next step keeps using the values computed at the most recent init, where they
are set to 15/(2π h⁵), 15/(π h⁶), 15/(π h⁵) and 45/(π h⁶) for the init-time
radius h. -/
theorem C5_coefficients_stale (s : SPHState) (c : SPHConfig) (hw : ℕ)
    (ps : List Particle) (prev : SPHState) :
    (setConfig s c).K_SpikyPow2 = s.K_SpikyPow2
    ∧ (setConfig s c).K_SpikyPow3 = s.K_SpikyPow3
    ∧ (setConfig s c).K_SpikyPow2Grad = s.K_SpikyPow2Grad
    ∧ (setConfig s c).K_SpikyPow3Grad = s.K_SpikyPow3Grad
    ∧ (init hw c ps prev).K_SpikyPow2 = 15 / (2 * PI * c.smoothingRadius^5)
    ∧ (init hw c ps prev).K_SpikyPow3 = 15 / (PI * c.smoothingRadius^6)
    ∧ (init hw c ps prev).K_SpikyPow2Grad = 15 / (PI * c.smoothingRadius^5)
    ∧ (init hw c ps prev).K_SpikyPow3Grad = 45 / (PI * c.smoothingRadius^6) :=
  ⟨rfl, rfl, rfl, rfl, rfl, rfl, rfl, rfl⟩

/-- C3 fails on the code: init with an empty particle list chooses a worker
count of 0, and the chunk computation at the top of the following step divides
by zero (modelled as none), so step is not a no-op — it has undefined behaviour. -/
theorem C3_step_empty_divides_by_zero (hw : ℕ) (cfg : SPHConfig) (prev : SPHState) :
    (init hw cfg [] prev).threadCount = 0
    ∧ stepChunk (init hw cfg [] prev).threadCount
        (init hw cfg [] prev).particles.length = none := by
  have h : (init hw cfg [] prev).threadCount = 0 := by
    simp [init]
  exact ⟨h, by rw [h]; rfl⟩

/-- C1 fails on the code: with two coincident particles (both in one bucket
whose key is that of the query particle's own cell, which the 27-cell
neighbourhood contains), the neighbour q at the bucket's starting offset lies
within the smoothing radius of p yet is processed zero times by the pressure
pass — the walk increments before dereferencing and so never dereferences the
entry at offsets[key]. -/
theorem C1_bucket_head_never_contributes :
    c12Parts.length = 2
    ∧ (0 : ℕ) ≠ 1
    ∧ vdot (vsub (c12Parts.getD 0 defaultParticle).predicted
          (c12Parts.getD 1 defaultParticle).predicted)
        (vsub (c12Parts.getD 0 defaultParticle).predicted
          (c12Parts.getD 1 defaultParticle).predicted)
        ≤ c12Cfg.smoothingRadius ^ 2
    ∧ (⟨0, 0, 0⟩ : Cell) ∈ OFFSETS_3D
    ∧ c12Keys.getD 0 0 =
        keyFromHash
          (hashCell (cellAdd (getCell c12Cfg.smoothingRadius
            (c12Parts.getD 1 defaultParticle)) ⟨0, 0, 0⟩))
          c12Keys.length
    ∧ offsetsAt c12Keys (c12Keys.getD 0 0) = 0
    ∧ (pressureProcessed c12Cfg c12Keys c12Parts 1).count 0 = 0 :=
  of_decide_eq_true (by with_unfolding_all rfl)

/-- C2 fails on the code: on the same two-particle input, the
increment-then-dereference walk of the pressure and viscosity passes
dereferences index 2 = N, one past the end of the particle array. -/
theorem C2_walk_dereferences_index_N :
    c12Parts.length = 2
    ∧ (2 : ℕ) ∈ neighborDerefs c12Cfg.smoothingRadius c12Keys
        (c12Parts.getD 1 defaultParticle) true :=
  of_decide_eq_true (by with_unfolding_all rfl)

/-- C6 fails on the code: in the floor-bounce scenario the particle has no
in-range neighbour, so the airborne drag of the pressure pass scales the
velocity by 1 − 0.75·dt before the bounce, and the velocity after one step is
79/80, not +1. -/
theorem C6_counterexample :
    (c6After.particles.getD 0 defaultParticle).velocity.y ≠ 1 :=
  of_decide_eq_true (by with_unfolding_all rfl)

/-- C6 amended: after one step the particle is clamped at position.y = −1 and
its velocity.y is 79/80 = (1 − 0.75/60)·2·0.5 — the airborne drag applies
because the single particle counts 0 < 8 neighbours, then the bounce reverses
and halves the velocity. -/
theorem C6_floor_bounce :
    (c6After.particles.getD 0 defaultParticle).position.y = -1
    ∧ (c6After.particles.getD 0 defaultParticle).velocity.y = 79/80 :=
  of_decide_eq_true (by with_unfolding_all rfl)

/-- C8 fails on the code: densityDerivative is strictly increasing on [0, h]
(here h = 1, d = 0 against d = 1), so not every kernel is monotonically
non-increasing on [0, h]. -/
theorem C8_counterexample :
    densityDerivative 1 (kSpikyPow2Grad 1) 0 < densityDerivative 1 (kSpikyPow2Grad 1) 1 :=
  of_decide_eq_true (by with_unfolding_all rfl)

/-- C8 amended: with the coefficients computed as at init, the support facts
hold as claimed, the three non-negative kernels are monotonically non-increasing
on [0, h], and the two derivative kernels are non-positive and monotonically
non-decreasing on [0, h]. -/
theorem C8_kernel_properties (h : ℚ) (hh : 0 < h) : C8Prop h := by
  have hPI : (0:ℚ) < PI := by norm_num [PI]
  have hK2 : 0 < kSpikyPow2 h := by
    unfold kSpikyPow2 PI
    positivity
  have hK3 : 0 < kSpikyPow3 h := by
    unfold kSpikyPow3 PI
    positivity
  have hK2g : 0 < kSpikyPow2Grad h := by
    unfold kSpikyPow2Grad PI
    positivity
  have hK3g : 0 < kSpikyPow3Grad h := by
    unfold kSpikyPow3Grad PI
    positivity
  unfold C8Prop
  refine ⟨?_, ?_, ?_, ?_, ?_, ?_, ?_, ?_, ?_, ?_, ?_, ?_⟩
  · simp [densityKernel]
  · unfold densityKernel
    rw [if_pos hh]
    ring
  · intro d hd
    unfold densityKernel
    rw [if_neg (not_lt.mpr hd)]
  · intro d hd
    unfold nearDensityKernel
    rw [if_neg (not_lt.mpr hd)]
  · intro d hd
    unfold densityDerivative
    rw [if_neg (not_le.mpr hd)]
  · intro d hd
    unfold nearDensityDerivative
    rw [if_neg (not_le.mpr hd)]
  · intro d hd
    unfold poly6Kernel
    rw [if_neg (not_lt.mpr hd)]
  · intro d1 d2 h0 h12 h2h
    unfold densityKernel
    by_cases hc2 : d2 < h
    · rw [if_pos hc2, if_pos (lt_of_le_of_lt h12 hc2)]
      have hsq : (h - d2) * (h - d2) ≤ (h - d1) * (h - d1) := by nlinarith
      exact mul_le_mul_of_nonneg_right hsq (le_of_lt hK2)
    · rw [if_neg hc2]
      by_cases hc1 : d1 < h
      · rw [if_pos hc1]
        have h1 : (0:ℚ) ≤ h - d1 := by linarith
        exact mul_nonneg (mul_nonneg h1 h1) (le_of_lt hK2)
      · rw [if_neg hc1]
  · intro d1 d2 h0 h12 h2h
    unfold nearDensityKernel
    by_cases hc2 : d2 < h
    · rw [if_pos hc2, if_pos (lt_of_le_of_lt h12 hc2)]
      have ha : (0:ℚ) ≤ h - d2 := by linarith
      have hb : h - d2 ≤ h - d1 := by linarith
      have hcube : (h - d2)^3 ≤ (h - d1)^3 := pow_le_pow_left₀ ha hb 3
      calc (h - d2) * (h - d2) * (h - d2) * kSpikyPow3 h
          = (h - d2)^3 * kSpikyPow3 h := by ring
        _ ≤ (h - d1)^3 * kSpikyPow3 h :=
            mul_le_mul_of_nonneg_right hcube (le_of_lt hK3)
        _ = (h - d1) * (h - d1) * (h - d1) * kSpikyPow3 h := by ring
    · rw [if_neg hc2]
      by_cases hc1 : d1 < h
      · rw [if_pos hc1]
        have h1 : (0:ℚ) ≤ h - d1 := by linarith
        exact mul_nonneg (mul_nonneg (mul_nonneg h1 h1) h1) (le_of_lt hK3)
      · rw [if_neg hc1]
  · intro d1 d2 h0 h12 h2h
    have h64 : (0:ℚ) < 64 * PI * h^9 :=
      mul_pos (mul_pos (by norm_num) hPI) (pow_pos hh 9)
    have hs : (0:ℚ) < 315 / (64 * PI * h^9) := div_pos (by norm_num) h64
    unfold poly6Kernel
    by_cases hc2 : d2 < h
    · rw [if_pos hc2, if_pos (lt_of_le_of_lt h12 hc2)]
      have ha : (0:ℚ) ≤ h * h - d2 * d2 := by nlinarith
      have hb : h * h - d2 * d2 ≤ h * h - d1 * d1 := by nlinarith
      have hcube : (h * h - d2 * d2)^3 ≤ (h * h - d1 * d1)^3 := pow_le_pow_left₀ ha hb 3
      calc (h * h - d2 * d2) * (h * h - d2 * d2) * (h * h - d2 * d2)
              * (315 / (64 * PI * h^9))
          = (h * h - d2 * d2)^3 * (315 / (64 * PI * h^9)) := by ring
        _ ≤ (h * h - d1 * d1)^3 * (315 / (64 * PI * h^9)) :=
            mul_le_mul_of_nonneg_right hcube (le_of_lt hs)
        _ = (h * h - d1 * d1) * (h * h - d1 * d1) * (h * h - d1 * d1)
              * (315 / (64 * PI * h^9)) := by ring
    · rw [if_neg hc2]
      by_cases hc1 : d1 < h
      · rw [if_pos hc1]
        have ha : (0:ℚ) ≤ h * h - d1 * d1 := by nlinarith
        exact mul_nonneg (mul_nonneg (mul_nonneg ha ha) ha) (le_of_lt hs)
      · rw [if_neg hc1]
  · intro d1 d2 h0 h12 h2h
    have hd1h : d1 ≤ h := le_trans h12 h2h
    unfold densityDerivative
    rw [if_pos h2h, if_pos hd1h]
    constructor
    · have hmono : (h - d2) * kSpikyPow2Grad h ≤ (h - d1) * kSpikyPow2Grad h :=
        mul_le_mul_of_nonneg_right (by linarith) (le_of_lt hK2g)
      linarith
    · have hpos : (0:ℚ) ≤ (h - d1) * kSpikyPow2Grad h :=
        mul_nonneg (by linarith) (le_of_lt hK2g)
      linarith
  · intro d1 d2 h0 h12 h2h
    have hd1h : d1 ≤ h := le_trans h12 h2h
    unfold nearDensityDerivative
    rw [if_pos h2h, if_pos hd1h]
    have ha : (0:ℚ) ≤ h - d2 := by linarith
    have hb : h - d2 ≤ h - d1 := by linarith
    have hsq : (h - d2) * (h - d2) ≤ (h - d1) * (h - d1) := mul_self_le_mul_self ha hb
    have hmono : (h - d2) * (h - d2) * kSpikyPow3Grad h
        ≤ (h - d1) * (h - d1) * kSpikyPow3Grad h :=
      mul_le_mul_of_nonneg_right hsq (le_of_lt hK3g)
    constructor
    · linarith
    · have hpos : (0:ℚ) ≤ (h - d1) * (h - d1) * kSpikyPow3Grad h :=
        mul_nonneg (mul_nonneg (by linarith) (by linarith)) (le_of_lt hK3g)
      linarith

/-- Witness for C8 at the concrete radius h = 1. -/
theorem C8_kernel_properties_witness : (0:ℚ) < 1 ∧ C8Prop 1 :=
  ⟨by norm_num, C8_kernel_properties 1 (by norm_num)⟩

/-- std::clamp keeps its value between the (ordered) bounds. -/
theorem clampQ_mem (v lo hi : ℚ) (h : lo ≤ hi) :
    lo ≤ clampQ v lo hi ∧ clampQ v lo hi ≤ hi := by
  unfold clampQ
  split_ifs with h1 h2
  · exact ⟨le_refl lo, h⟩
  · exact ⟨h, le_refl hi⟩
  · exact ⟨not_lt.mp h1, not_lt.mp h2⟩

/-- For a non-negative box size, every spawnBox interval lies inside
[−boxSize/2, boxSize/2]. -/
theorem spawnBox_subset (boxSize margin mhr : ℚ) (hb : 0 ≤ boxSize) :
    -(boxSize/2) ≤ (spawnBox boxSize margin mhr).xlo
    ∧ (spawnBox boxSize margin mhr).xhi ≤ boxSize/2
    ∧ -(boxSize/2) ≤ (spawnBox boxSize margin mhr).ylo
    ∧ (spawnBox boxSize margin mhr).yhi ≤ boxSize/2
    ∧ -(boxSize/2) ≤ (spawnBox boxSize margin mhr).zlo
    ∧ (spawnBox boxSize margin mhr).zhi ≤ boxSize/2 := by
  have hhalf : (0:ℚ) ≤ boxSize * (1/2) := by linarith
  have hcm := clampQ_mem margin 0 (boxSize * (1/2)) hhalf
  simp only [spawnBox]
  refine ⟨?_, ?_, ?_, ?_, ?_, ?_⟩
  · linarith [hcm.1]
  · linarith [hcm.1]
  · split_ifs with hy
    · linarith [hcm.2]
    · exact le_trans (by linarith [hcm.1])
        (le_max_left (-(boxSize * (1/2)) + clampQ margin 0 (boxSize * (1/2)))
          (mhr * (boxSize * (1/2))))
  · linarith [hcm.1]
  · linarith [hcm.1]
  · linarith [hcm.1]

/-- C10: for every count, non-negative boxSize and arbitrary margin and
minHeightRatio (including margin > boxSize/2 and minHeightRatio > 1), every
particle produced by spawnParticlesInBox has each position component within
boxSize/2 in absolute value, zero velocity, and predicted equal to position. -/
theorem C10_spawn_in_box (count : ℕ) (boxSize margin mhr : ℚ) (sample : ℕ → Vec3Q)
    (hbox : 0 ≤ boxSize)
    (hsample : ∀ i, sampleInBox (spawnBox boxSize margin mhr) (sample i)) :
    ∀ p ∈ spawnParticlesInBox count boxSize margin mhr sample,
      |p.position.x| ≤ boxSize / 2 ∧ |p.position.y| ≤ boxSize / 2
      ∧ |p.position.z| ≤ boxSize / 2 ∧ p.velocity = vzero
      ∧ p.predicted = p.position := by
  intro p hp
  unfold spawnParticlesInBox at hp
  rw [List.mem_map] at hp
  obtain ⟨i, _, rfl⟩ := hp
  have hs := hsample i
  have hbx := spawnBox_subset boxSize margin mhr hbox
  unfold sampleInBox at hs
  simp only [mkParticle]
  refine ⟨?_, ?_, ?_, trivial, trivial⟩
  · exact abs_le.mpr ⟨by linarith [hbx.1, hs.1], by linarith [hbx.2.1, hs.2.1]⟩
  · exact abs_le.mpr
      ⟨by linarith [hbx.2.2.1, hs.2.2.1], by linarith [hbx.2.2.2.1, hs.2.2.2.1]⟩
  · exact abs_le.mpr
      ⟨by linarith [hbx.2.2.2.2.1, hs.2.2.2.2.1], by linarith [hbx.2.2.2.2.2, hs.2.2.2.2.2]⟩

/-- Witness for C10 at boxSize = 2, margin = 5 (> boxSize/2) and
minHeightRatio = 3 (> 1), with every draw at the origin. -/
theorem C10_spawn_in_box_witness :
    (0:ℚ) ≤ 2
    ∧ |(mkParticle vzero vzero).position.x| ≤ 2/2
    ∧ |(mkParticle vzero vzero).position.y| ≤ 2/2
    ∧ |(mkParticle vzero vzero).position.z| ≤ 2/2
    ∧ (mkParticle vzero vzero).velocity = vzero
    ∧ (mkParticle vzero vzero).predicted = (mkParticle vzero vzero).position := by
  have h := C10_spawn_in_box 1 2 5 3 c10Sample (by norm_num)
    (fun i => of_decide_eq_true (by with_unfolding_all rfl))
    (mkParticle vzero vzero) (of_decide_eq_true (by with_unfolding_all rfl))
  exact ⟨by norm_num, h.1, h.2.1, h.2.2.1, h.2.2.2.1, h.2.2.2.2⟩
